import Mathlib

/-!
Shallow embedding of a small RV32I emulator (memory, register file, program
counter, instruction formats, decode and execute) together with theorems
checking its specification.  Machine words are modelled as `Nat` with explicit
reduction modulo `2 ^ 32` wherever the 32-bit operations wrap.
-/

namespace RiscV

/-- RAM size (`MEM_SIZE` in `memory.rs`). -/
def MEM_SIZE : Nat := 1024 * 128

/-- Modulus of 32-bit machine arithmetic, `2 ^ 32`. -/
def U32 : Nat := 2 ^ 32

/-- Rust `u32::wrapping_add`. -/
def wrap_add (a b : Nat) : Nat := (a + b) % U32

/-- Rust `u32::wrapping_sub`. -/
def wrap_sub (a b : Nat) : Nat := (a + U32 - b % U32) % U32

/-- The unsigned-container form of the bit-extraction helper in `cpu.rs`:
extracts the inclusive bit range `[lo, hi]` of `n`, zero-extended. -/
def get_bits (n lo hi : Nat) : Nat := (n / 2 ^ lo) % 2 ^ (hi - lo + 1)

/-- The signed-container (`i32`) form of the bit-extraction helper in `cpu.rs`:
the mask-and-arithmetic-shift sign-extends exactly when the range reaches bit 31
and the extracted field's top bit is set.  The result is the `u32` bit pattern
of that `i32`. -/
def get_bits_i32 (n lo hi : Nat) : Nat :=
  let v := get_bits n lo hi
  if hi = 31 ∧ 2 ^ (31 - lo) ≤ v then v + (U32 - 2 ^ (32 - lo)) else v

/-- The `u32` bit pattern of a value sign-extended from `bits` bits to 32. -/
def sext (bits v : Nat) : Nat := if v < 2 ^ (bits - 1) then v else v + (U32 - 2 ^ bits)

/-- Reinterpret a `u32` bit pattern as an `i32` value (`as i32` in Rust). -/
def toInt32 (x : Nat) : Int := if x < 2 ^ 31 then (x : Int) else (x : Int) - (U32 : Int)

/-- Arithmetic right shift of the `u32` bit pattern `a` by `k < 32`
(`(a as i32 >> k) as u32`). -/
def sra (a k : Nat) : Nat :=
  if a < 2 ^ 31 then a >>> k else a >>> k + (U32 - 2 ^ (32 - k))

/-! ### Instruction formats (`inst_format.rs`) -/

structure RFormat where
  rd : Nat
  funct3 : Nat
  rs1 : Nat
  rs2 : Nat
  funct7 : Nat
deriving DecidableEq

def RFormat.new (raw_inst : Nat) : RFormat :=
  { rd := get_bits raw_inst 7 11
    funct3 := get_bits raw_inst 12 14
    rs1 := get_bits raw_inst 15 19
    rs2 := get_bits raw_inst 20 24
    funct7 := get_bits raw_inst 25 31 }

structure IFormat where
  rd : Nat
  funct3 : Nat
  rs1 : Nat
  imm : Nat
deriving DecidableEq

def IFormat.new (raw_inst : Nat) : IFormat :=
  { rd := get_bits raw_inst 7 11
    funct3 := get_bits raw_inst 12 14
    rs1 := get_bits raw_inst 15 19
    imm := get_bits_i32 raw_inst 20 31 }

structure SFormat where
  funct3 : Nat
  rs1 : Nat
  rs2 : Nat
  imm : Nat
deriving DecidableEq

def SFormat.new (raw_inst : Nat) : SFormat :=
  let imm_lo := get_bits_i32 raw_inst 7 11
  let imm_hi := get_bits_i32 raw_inst 25 31
  { funct3 := get_bits raw_inst 12 14
    rs1 := get_bits raw_inst 15 19
    rs2 := get_bits raw_inst 20 24
    imm := ((imm_hi <<< 5) % U32) ||| imm_lo }

structure BFormat where
  funct3 : Nat
  rs1 : Nat
  rs2 : Nat
  imm : Nat
deriving DecidableEq

def BFormat.new (raw_inst : Nat) : BFormat :=
  let imm_11th_bit := get_bits_i32 raw_inst 7 7
  let imm_lo := get_bits_i32 raw_inst 8 11
  let imm_hi := get_bits_i32 raw_inst 25 30
  let imm_12th_bit := get_bits_i32 raw_inst 31 31
  { funct3 := get_bits raw_inst 12 14
    rs1 := get_bits raw_inst 15 19
    rs2 := get_bits raw_inst 20 24
    imm := ((imm_12th_bit <<< 12) % U32) ||| ((imm_11th_bit <<< 11) % U32) |||
      ((imm_hi <<< 5) % U32) ||| ((imm_lo <<< 1) % U32) }

structure JFormat where
  rd : Nat
  imm : Nat
deriving DecidableEq

def JFormat.new (raw_inst : Nat) : JFormat :=
  let imm_hi := get_bits_i32 raw_inst 12 19
  let imm_11th_bit := get_bits_i32 raw_inst 20 20
  let imm_lo := get_bits_i32 raw_inst 21 30
  let imm_20th_bit := get_bits_i32 raw_inst 31 31
  { rd := get_bits raw_inst 7 11
    imm := ((imm_20th_bit <<< 20) % U32) ||| ((imm_hi <<< 12) % U32) |||
      ((imm_11th_bit <<< 11) % U32) ||| ((imm_lo <<< 1) % U32) }

structure UFormat where
  rd : Nat
  imm : Nat
deriving DecidableEq

def UFormat.new (raw_inst : Nat) : UFormat :=
  { rd := get_bits raw_inst 7 11
    imm := get_bits_i32 raw_inst 12 31 }

/-! ### Errors (`error.rs`) -/

inductive FormatError where
  | R : RFormat → FormatError
  | I : IFormat → FormatError
  | S : SFormat → FormatError
  | B : BFormat → FormatError
deriving DecidableEq

inductive Error where
  | InvalidOpcode : Nat → Error
  | InvalidInstFormat : FormatError → Error
  | InvalidPC : Nat → Nat → Error
  | EndOfInstructions : Error
deriving DecidableEq

/-! ### Register file (`regs.rs`) -/

structure Registers where
  vals : Nat → Nat

def Registers.new : Registers := ⟨fun i => if i = 2 then MEM_SIZE else 0⟩

/-- Rust `Registers::read`: `x0` is hardwired to 0. -/
def Registers.read (r : Registers) (reg : Nat) : Nat :=
  if reg = 0 then 0 else r.vals reg

/-- Rust `Registers::write`: writes to `x0` are dropped. -/
def Registers.write (r : Registers) (reg val : Nat) : Registers :=
  if reg = 0 then r else ⟨fun j => if j = reg then val else r.vals j⟩

/-! ### Memory (`memory.rs`) -/

inductive Size where
  | Byte
  | HalfWord
  | Word
deriving DecidableEq

/-- The enum discriminants (`Size as u32`): number of bytes accessed. -/
def Size.val : Size → Nat
  | .Byte => 1
  | .HalfWord => 2
  | .Word => 4

structure Memory where
  bytes : Nat → Nat

def Memory.new : Memory := ⟨fun _ => 0⟩

/-- Little-endian assembly of consecutive bytes, as `from_le_bytes`. -/
def Memory.readLE (m : Memory) (a : Nat) : Nat → Nat
  | 0 => 0
  | n + 1 => m.bytes a + 256 * m.readLE (a + 1) n

/-- Rust `Memory::read`: the `read_mem!` arms; `i8`/`i16` containers sign-extend. -/
def Memory.read (m : Memory) (a : Nat) (size : Size) (is_unsigned : Bool) : Nat :=
  let v := m.readLE a size.val
  match size, is_unsigned with
  | .Byte, false => sext 8 v
  | .HalfWord, false => sext 16 v
  | _, _ => v

def Memory.setByte (m : Memory) (a v : Nat) : Memory :=
  ⟨fun x => if x = a then v else m.bytes x⟩

/-- Copy the low `len` bytes of `val` (its `to_le_bytes` prefix) to
addresses `a, a+1, …`. -/
def Memory.writeBytes (m : Memory) (a : Nat) : Nat → Nat → Memory
  | 0, _ => m
  | n + 1, val => (m.setByte a (val % 256)).writeBytes (a + 1) n (val / 256)

/-- Rust `Memory::write`. -/
def Memory.write (m : Memory) (a : Nat) (size : Size) (val : Nat) : Memory :=
  m.writeBytes a size.val val

/-- Rust `Vec::resize_with(n, || 0)`: truncates when `n ≤ len`, otherwise appends
zeros up to length `n`. -/
def resize_with_zero (l : List Nat) (n : Nat) : List Nat :=
  if n ≤ l.length then l.take n else l ++ List.replicate (n - l.length) 0

/-- Rust `Memory::load_program`: resize the program vector to `MEM_SIZE` and make
it the backing array; the conversion to an array fails (`none`) only if the
resized vector's length is not `MEM_SIZE`. -/
def Memory.load_program (_ : Memory) (program : List Nat) : Option Memory :=
  let p := resize_with_zero program MEM_SIZE
  if p.length = MEM_SIZE then some ⟨fun i => p.getD i 0⟩ else none

/-! ### Program counter (`pc.rs`) -/

/-- Rust `ProgramCounter::inc`: returns (result, new stored pc).  The stored
value is advanced by 4 before the bound check, so it is updated even on error. -/
def ProgramCounter.inc (pc : Nat) : Except Error Nat × Nat :=
  let pc' := wrap_add pc 4
  if MEM_SIZE - 4 < pc then (.error (.InvalidPC pc MEM_SIZE), pc')
  else (.ok pc, pc')

/-! ### Instructions (`inst.rs`) -/

inductive RInst where
  | ADD | SUB | XOR | OR | AND | SLL | SRL | SRA | SLT | SLTU
deriving DecidableEq

inductive ArithIInst where
  | ADDI | XORI | ORI | ANDI | SLLI | SRLI | SRAI | SLTI | SLTIU
deriving DecidableEq

inductive LoadIInst where
  | LB | LH | LW | LBU | LHU
deriving DecidableEq

inductive IInst where
  | Arith : ArithIInst → IInst
  | Mem : LoadIInst → IInst
  | Jalr : IInst
deriving DecidableEq

inductive SInst where
  | SB | SH | SW
deriving DecidableEq

inductive BInst where
  | BEQ | BNE | BLT | BLTU | BGE | BGEU
deriving DecidableEq

inductive UInst where
  | LUI | AUIPC
deriving DecidableEq

inductive SysCall where
  | Exit : Nat → SysCall
  | Nop : SysCall
deriving DecidableEq

inductive Inst where
  | R : RInst → RFormat → Inst
  | I : IInst → IFormat → Inst
  | S : SInst → SFormat → Inst
  | B : BInst → BFormat → Inst
  | J : JFormat → Inst
  | U : UInst → UFormat → Inst
  | SysCall : SysCall → Inst
deriving DecidableEq

/-- Rust `RInst::op`: the ALU function of each register-register operation. -/
def RInst.op : RInst → Nat → Nat → Nat
  | .ADD, rs1, rs2 => wrap_add rs1 rs2
  | .SUB, rs1, rs2 => wrap_sub rs1 rs2
  | .XOR, rs1, rs2 => rs1 ^^^ rs2
  | .OR, rs1, rs2 => rs1 ||| rs2
  | .AND, rs1, rs2 => rs1 &&& rs2
  | .SLL, rs1, rs2 => (rs1 <<< get_bits rs2 0 4) % U32
  | .SRL, rs1, rs2 => rs1 >>> get_bits rs2 0 4
  | .SRA, rs1, rs2 => sra rs1 (get_bits rs2 0 4)
  | .SLT, rs1, rs2 => if toInt32 rs1 < toInt32 rs2 then 1 else 0
  | .SLTU, rs1, rs2 => if rs1 < rs2 then 1 else 0

/-- Rust `impl From<ArithIInst> for RInst`. -/
def RInst.fromArith : ArithIInst → RInst
  | .ADDI => .ADD
  | .XORI => .XOR
  | .ORI => .OR
  | .ANDI => .AND
  | .SLLI => .SLL
  | .SRLI => .SRL
  | .SRAI => .SRA
  | .SLTI => .SLT
  | .SLTIU => .SLTU

def LoadIInst.is_unsigned : LoadIInst → Bool
  | .LBU | .LHU => true
  | _ => false

/-- Rust `impl From<LoadIInst> for Size`. -/
def Size.fromLoad : LoadIInst → Size
  | .LB | .LBU => .Byte
  | .LH | .LHU => .HalfWord
  | .LW => .Word

/-- Rust `impl From<SInst> for Size`. -/
def Size.fromS : SInst → Size
  | .SB => .Byte
  | .SH => .HalfWord
  | .SW => .Word

/-- The branch condition computed in the `Inst::B` arm of `Inst::execute`. -/
def BInst.branch : BInst → Nat → Nat → Bool
  | .BEQ, rs1, rs2 => rs1 == rs2
  | .BNE, rs1, rs2 => rs1 != rs2
  | .BLT, rs1, rs2 => decide (toInt32 rs1 < toInt32 rs2)
  | .BLTU, rs1, rs2 => decide (rs1 < rs2)
  | .BGE, rs1, rs2 => decide (toInt32 rs1 ≥ toInt32 rs2)
  | .BGEU, rs1, rs2 => decide (rs1 ≥ rs2)

/-- Rust `UInst::op`.  Here `pc - 4` is `u32` subtraction; every executed U-type
instruction runs with the post-increment PC, which is at least 4. -/
def UInst.op (u : UInst) (pc : Nat) (imm : Nat) : Nat :=
  match u with
  | .LUI => (imm <<< 12) % U32
  | .AUIPC => wrap_add (pc - 4) ((imm <<< 12) % U32)

/-! ### CPU (`cpu.rs`) -/

structure Cpu where
  pc : Nat
  regs : Registers
  mem : Memory

def Cpu.new : Cpu := { pc := 0, regs := Registers.new, mem := Memory.new }

/-- Rust `Inst::execute`: the state transformation of one executed instruction. -/
def Inst.execute : Inst → Cpu → Cpu
  | .R inst f, cpu =>
    let rs1 := cpu.regs.read f.rs1
    let rs2 := cpu.regs.read f.rs2
    let result := inst.op rs1 rs2
    { cpu with regs := cpu.regs.write f.rd result }
  | .I (.Arith inst) f, cpu =>
    let rs1 := cpu.regs.read f.rs1
    let result := (RInst.fromArith inst).op rs1 f.imm
    { cpu with regs := cpu.regs.write f.rd result }
  | .I (.Mem inst) f, cpu =>
    let rs1 := cpu.regs.read f.rs1
    let result := cpu.mem.read (wrap_add rs1 f.imm) (Size.fromLoad inst) inst.is_unsigned
    { cpu with regs := cpu.regs.write f.rd result }
  | .I .Jalr f, cpu =>
    let rs1 := cpu.regs.read f.rs1
    let original_pc := cpu.pc
    let cpu' := { cpu with pc := wrap_add rs1 f.imm }
    { cpu' with regs := cpu'.regs.write f.rd original_pc }
  | .S inst f, cpu =>
    let rs1 := cpu.regs.read f.rs1
    let rs2 := cpu.regs.read f.rs2
    { cpu with mem := cpu.mem.write (wrap_add rs1 f.imm) (Size.fromS inst) rs2 }
  | .B inst f, cpu =>
    let rs1 := cpu.regs.read f.rs1
    let rs2 := cpu.regs.read f.rs2
    if inst.branch rs1 rs2 then
      { cpu with pc := wrap_add cpu.pc (wrap_sub f.imm 4) }
    else cpu
  | .J f, cpu =>
    let cpu' := { cpu with regs := cpu.regs.write f.rd cpu.pc }
    { cpu' with pc := wrap_add cpu'.pc (wrap_sub f.imm 4) }
  | .U inst f, cpu =>
    { cpu with regs := cpu.regs.write f.rd (inst.op cpu.pc f.imm) }
  | .SysCall _, cpu => cpu

/-- Rust `Cpu::fetch`: returns (result, new state).  The pc advance happens
inside `inc` before its bound check, so the state is updated even on error, and
on error the memory is never read. -/
def Cpu.fetch (cpu : Cpu) : Except Error Nat × Cpu :=
  match ProgramCounter.inc cpu.pc with
  | (.error e, pc') => (.error e, { cpu with pc := pc' })
  | (.ok pc, pc') => (.ok (cpu.mem.read pc .Word true), { cpu with pc := pc' })

/-- The `0b0110011` arm of `Cpu::decode`. -/
def decode_r (raw_inst : Nat) : Except Error Inst :=
  let r := RFormat.new raw_inst
  match r.funct3, r.funct7 with
  | 0x0, 0x00 => .ok (.R .ADD r)
  | 0x0, 0x20 => .ok (.R .SUB r)
  | 0x4, 0x00 => .ok (.R .XOR r)
  | 0x6, 0x00 => .ok (.R .OR r)
  | 0x7, 0x00 => .ok (.R .AND r)
  | 0x1, 0x00 => .ok (.R .SLL r)
  | 0x5, 0x00 => .ok (.R .SRL r)
  | 0x5, 0x20 => .ok (.R .SRA r)
  | 0x2, 0x00 => .ok (.R .SLT r)
  | 0x3, 0x00 => .ok (.R .SLTU r)
  | _, _ => .error (.InvalidInstFormat (.R r))

/-- The `0b0010011` arm of `Cpu::decode`. -/
def decode_i_arith (raw_inst : Nat) : Except Error Inst :=
  let i := IFormat.new raw_inst
  let upper_imm := get_bits i.imm 5 11
  match i.funct3, upper_imm with
  | 0x0, _ => .ok (.I (.Arith .ADDI) i)
  | 0x4, _ => .ok (.I (.Arith .XORI) i)
  | 0x6, _ => .ok (.I (.Arith .ORI) i)
  | 0x7, _ => .ok (.I (.Arith .ANDI) i)
  | 0x1, 0x00 => .ok (.I (.Arith .SLLI) i)
  | 0x5, 0x00 => .ok (.I (.Arith .SRLI) i)
  | 0x5, 0x20 => .ok (.I (.Arith .SRAI) i)
  | 0x2, _ => .ok (.I (.Arith .SLTI) i)
  | 0x3, _ => .ok (.I (.Arith .SLTIU) i)
  | _, _ => .error (.InvalidInstFormat (.I i))

/-- The `0b0000011` arm of `Cpu::decode`. -/
def decode_i_load (raw_inst : Nat) : Except Error Inst :=
  let i := IFormat.new raw_inst
  match i.funct3 with
  | 0x0 => .ok (.I (.Mem .LB) i)
  | 0x1 => .ok (.I (.Mem .LH) i)
  | 0x2 => .ok (.I (.Mem .LW) i)
  | 0x4 => .ok (.I (.Mem .LBU) i)
  | 0x5 => .ok (.I (.Mem .LHU) i)
  | _ => .error (.InvalidInstFormat (.I i))

/-- The `0b1100111` arm of `Cpu::decode`. -/
def decode_i_jalr (raw_inst : Nat) : Except Error Inst :=
  let i := IFormat.new raw_inst
  if i.funct3 = 0x0 then .ok (.I .Jalr i)
  else .error (.InvalidInstFormat (.I i))

/-- The `0b0100011` arm of `Cpu::decode`. -/
def decode_s (raw_inst : Nat) : Except Error Inst :=
  let s := SFormat.new raw_inst
  match s.funct3 with
  | 0x0 => .ok (.S .SB s)
  | 0x1 => .ok (.S .SH s)
  | 0x2 => .ok (.S .SW s)
  | _ => .error (.InvalidInstFormat (.S s))

/-- The `0b1100011` arm of `Cpu::decode`. -/
def decode_b (raw_inst : Nat) : Except Error Inst :=
  let b := BFormat.new raw_inst
  match b.funct3 with
  | 0x0 => .ok (.B .BEQ b)
  | 0x1 => .ok (.B .BNE b)
  | 0x4 => .ok (.B .BLT b)
  | 0x5 => .ok (.B .BGE b)
  | 0x6 => .ok (.B .BLTU b)
  | 0x7 => .ok (.B .BGEU b)
  | _ => .error (.InvalidInstFormat (.B b))

/-- Rust `Cpu::decode`. -/
def Cpu.decode (cpu : Cpu) (raw_inst : Nat) : Except Error Inst :=
  let opcode := get_bits raw_inst 0 6
  if opcode = 0b0110011 then decode_r raw_inst
  else if opcode = 0b0010011 then decode_i_arith raw_inst
  else if opcode = 0b0000011 then decode_i_load raw_inst
  else if opcode = 0b1100111 then decode_i_jalr raw_inst
  else if opcode = 0b0100011 then decode_s raw_inst
  else if opcode = 0b1100011 then decode_b raw_inst
  else if opcode = 0b1101111 then .ok (.J (JFormat.new raw_inst))
  else if opcode = 0b0110111 then .ok (.U .LUI (UFormat.new raw_inst))
  else if opcode = 0b0010111 then .ok (.U .AUIPC (UFormat.new raw_inst))
  else if opcode = 0b1110011 then
    .ok (.SysCall (if cpu.regs.read 17 = 93 then .Exit (cpu.regs.read 10 % 256) else .Nop))
  else if opcode = 0b0001111 then .ok (.SysCall .Nop)
  else .error (.InvalidOpcode opcode)

/-! ### Specification-side definitions and concrete states -/

/-- The eleven opcodes of the spec's dispatch table. -/
def recognizedOpcodes : List Nat :=
  [0b0110011, 0b0010011, 0b0000011, 0b1100111, 0b0100011, 0b1100011,
   0b1101111, 0b0110111, 0b0010111, 0b1110011, 0b0001111]

/-- Following the spec's dispatch table: the funct3/funct7 (or, for the
immediate shifts, imm[11:5], i.e. bits 25..31 of the word) combinations listed
for each recognised opcode.  Opcodes whose rows list no funct codes accept
every combination. -/
def listedCombo (raw_inst : Nat) : Bool :=
  let opcode := get_bits raw_inst 0 6
  let funct3 := get_bits raw_inst 12 14
  let funct7 := get_bits raw_inst 25 31
  if opcode = 0b0110011 then
    decide ((funct3 = 0x0 ∧ (funct7 = 0x00 ∨ funct7 = 0x20)) ∨
      (funct3 = 0x4 ∧ funct7 = 0x00) ∨ (funct3 = 0x6 ∧ funct7 = 0x00) ∨
      (funct3 = 0x7 ∧ funct7 = 0x00) ∨ (funct3 = 0x1 ∧ funct7 = 0x00) ∨
      (funct3 = 0x5 ∧ (funct7 = 0x00 ∨ funct7 = 0x20)) ∨
      (funct3 = 0x2 ∧ funct7 = 0x00) ∨ (funct3 = 0x3 ∧ funct7 = 0x00))
  else if opcode = 0b0010011 then
    decide (funct3 = 0x0 ∨ funct3 = 0x4 ∨ funct3 = 0x6 ∨ funct3 = 0x7 ∨
      (funct3 = 0x1 ∧ funct7 = 0x00) ∨ (funct3 = 0x5 ∧ (funct7 = 0x00 ∨ funct7 = 0x20)) ∨
      funct3 = 0x2 ∨ funct3 = 0x3)
  else if opcode = 0b0000011 then
    decide (funct3 = 0x0 ∨ funct3 = 0x1 ∨ funct3 = 0x2 ∨ funct3 = 0x4 ∨ funct3 = 0x5)
  else if opcode = 0b1100111 then decide (funct3 = 0x0)
  else if opcode = 0b0100011 then
    decide (funct3 = 0x0 ∨ funct3 = 0x1 ∨ funct3 = 0x2)
  else if opcode = 0b1100011 then
    decide (funct3 = 0x0 ∨ funct3 = 0x1 ∨ funct3 = 0x4 ∨ funct3 = 0x5 ∨
      funct3 = 0x6 ∨ funct3 = 0x7)
  else true

/-- A concrete CPU state used to instantiate theorems: post-increment PC 8,
all registers 0, zeroed memory. -/
def cpu0 : Cpu := { pc := 8, regs := ⟨fun _ => 0⟩, mem := Memory.new }

/-- Classifier: the decode result is a typed instruction. -/
def isOkInst : Except Error Inst → Bool
  | .ok _ => true
  | _ => false

/-- Classifier: the decode result is an `InvalidInstFormat` error. -/
def isInvalidInstFormat : Except Error Inst → Bool
  | .error (.InvalidInstFormat _) => true
  | _ => false

/-! ### Helper lemmas -/

theorem get_bits_0_4 (n : Nat) : get_bits n 0 4 = n % 32 := by
  unfold get_bits
  norm_num

theorem and_31_eq_mod (s : Nat) : s &&& 31 = s % 32 := by
  have h := Nat.and_pow_two_sub_one_eq_mod s 5
  norm_num at h
  exact h

theorem wrap_add_sub_four (p imm : Nat) :
    wrap_add p (wrap_sub imm 4) = wrap_add (wrap_sub p 4) imm := by
  unfold wrap_add wrap_sub U32
  norm_num
  omega

theorem sext_32_eq (w : Nat) : sext 32 w = w := by
  unfold sext U32
  norm_num

/-! ### Claim theorems -/

/-- C4: reads of register 0 always yield 0, and writes to register 0 leave the
register file unchanged; in particular a write of any `v` to register 0
followed by a read of register 0 yields 0. -/
theorem reg_zero_correct (r : Registers) (v i : Nat) :
    r.read 0 = 0 ∧ r.write 0 v = r ∧ (r.write 0 v).read 0 = 0 ∧
      (r.write 0 v).read i = r.read i := by
  refine ⟨rfl, rfl, rfl, rfl⟩

/-- C9: for SLL, SRL and SRA (hence also for SLLI, SRLI and SRAI, which
dispatch to the same ALU functions through `RInst.fromArith`) the result with
second operand `s` equals the result with second operand `s &&& 0x1F`: only
the low 5 bits of the shift amount affect the result. -/
theorem shift_mask_correct (x s : Nat) :
    RInst.op .SLL x s = RInst.op .SLL x (s &&& 0x1F) ∧
    RInst.op .SRL x s = RInst.op .SRL x (s &&& 0x1F) ∧
    RInst.op .SRA x s = RInst.op .SRA x (s &&& 0x1F) ∧
    RInst.fromArith .SLLI = .SLL ∧ RInst.fromArith .SRLI = .SRL ∧
    RInst.fromArith .SRAI = .SRA := by
  have hmask : get_bits (s &&& 0x1F) 0 4 = get_bits s 0 4 := by
    rw [get_bits_0_4, get_bits_0_4, and_31_eq_mod]
    omega
  refine ⟨?_, ?_, ?_, rfl, rfl, rfl⟩ <;> simp only [RInst.op, hmask]

/-- C10: a call to `ProgramCounter.inc` with stored value `p` always leaves the
stored counter at `(p + 4) % 2^32`, also when it returns the `InvalidPC`
error: the failed call still mutates the counter. -/
theorem inc_mutates_on_error (p : Nat) :
    (ProgramCounter.inc p).2 = (p + 4) % U32 ∧
    (MEM_SIZE - 4 < p →
      (ProgramCounter.inc p).1 = .error (.InvalidPC p MEM_SIZE)) := by
  constructor
  · unfold ProgramCounter.inc wrap_add
    split <;> rfl
  · intro h
    unfold ProgramCounter.inc
    rw [if_pos h]

theorem inc_mutates_on_error_witness :
    MEM_SIZE - 4 < 131072 ∧
      (ProgramCounter.inc 131072).1 = .error (.InvalidPC 131072 MEM_SIZE) ∧
      (ProgramCounter.inc 131072).2 = 131076 := by
  refine ⟨by decide, (inc_mutates_on_error 131072).2 (by decide), ?_⟩
  have h := (inc_mutates_on_error 131072).1
  rw [h]
  decide

/-- C3: `ProgramCounter.inc` with stored value `p` returns
`InvalidPC (p, MEM_SIZE)` if and only if `p > MEM_SIZE - 4`, and otherwise
returns the pre-increment value `p`; consequently `fetch` returns an error
(before reading memory — in the embedding the erroneous branch of `fetch`
performs no memory read) exactly when the 4-byte read at `p` would extend past
the end of memory. -/
theorem inc_bound_correct (cpu : Cpu) :
    ((ProgramCounter.inc cpu.pc).1 = .error (.InvalidPC cpu.pc MEM_SIZE) ↔
      MEM_SIZE - 4 < cpu.pc) ∧
    (cpu.pc ≤ MEM_SIZE - 4 → (ProgramCounter.inc cpu.pc).1 = .ok cpu.pc) ∧
    ((∃ e, (Cpu.fetch cpu).1 = .error e) ↔ MEM_SIZE < cpu.pc + 4) := by
  by_cases h : MEM_SIZE - 4 < cpu.pc
  · have hM : MEM_SIZE < cpu.pc + 4 := by
      have : (131072 : Nat) = MEM_SIZE := by norm_num [MEM_SIZE]
      omega
    refine ⟨by simp [ProgramCounter.inc, h], fun hc => absurd h (by omega), ?_⟩
    simp only [Cpu.fetch, ProgramCounter.inc, if_pos h]
    simpa using hM
  · have hM : ¬ MEM_SIZE < cpu.pc + 4 := by
      have : (131072 : Nat) = MEM_SIZE := by norm_num [MEM_SIZE]
      omega
    refine ⟨by simp [ProgramCounter.inc, h], fun _ => by simp [ProgramCounter.inc, h], ?_⟩
    simp only [Cpu.fetch, ProgramCounter.inc, if_neg h]
    simpa using hM

theorem inc_bound_correct_witness :
    cpu0.pc ≤ MEM_SIZE - 4 ∧ (ProgramCounter.inc cpu0.pc).1 = .ok cpu0.pc :=
  ⟨by decide, (inc_bound_correct cpu0).2.1 (by decide)⟩

/-- C2: an executed branch instruction with post-increment PC `p` sets the PC
to `p + (imm - 4)` modulo `2^32` when its predicate on (rs1, rs2) holds — an
address equal to the branch instruction's own address `p - 4` plus `imm` — and
leaves the PC at `p` otherwise.  The predicate is bitwise equality/inequality
for BEQ/BNE, signed comparison for BLT/BGE and unsigned comparison for
BLTU/BGEU. -/
theorem branch_pc_correct (inst : BInst) (f : BFormat) (cpu : Cpu) :
    (BInst.branch inst (cpu.regs.read f.rs1) (cpu.regs.read f.rs2) = true →
      (Inst.execute (.B inst f) cpu).pc = wrap_add cpu.pc (wrap_sub f.imm 4) ∧
      wrap_add cpu.pc (wrap_sub f.imm 4) = wrap_add (wrap_sub cpu.pc 4) f.imm) ∧
    (BInst.branch inst (cpu.regs.read f.rs1) (cpu.regs.read f.rs2) = false →
      (Inst.execute (.B inst f) cpu).pc = cpu.pc) ∧
    (BInst.branch inst (cpu.regs.read f.rs1) (cpu.regs.read f.rs2) = true ↔
      match inst with
      | .BEQ => cpu.regs.read f.rs1 = cpu.regs.read f.rs2
      | .BNE => cpu.regs.read f.rs1 ≠ cpu.regs.read f.rs2
      | .BLT => toInt32 (cpu.regs.read f.rs1) < toInt32 (cpu.regs.read f.rs2)
      | .BGE => toInt32 (cpu.regs.read f.rs1) ≥ toInt32 (cpu.regs.read f.rs2)
      | .BLTU => cpu.regs.read f.rs1 < cpu.regs.read f.rs2
      | .BGEU => cpu.regs.read f.rs1 ≥ cpu.regs.read f.rs2) := by
  refine ⟨fun h => ⟨?_, wrap_add_sub_four cpu.pc f.imm⟩, fun h => ?_, ?_⟩
  · simp [Inst.execute, h]
  · simp [Inst.execute, h]
  · cases inst <;> simp [BInst.branch]

theorem branch_pc_correct_witness :
    (Inst.execute (.B .BEQ ⟨0, 1, 2, 16⟩) cpu0).pc = wrap_add cpu0.pc (wrap_sub 16 4) ∧
    (Inst.execute (.B .BLTU ⟨6, 1, 2, 16⟩) cpu0).pc = cpu0.pc :=
  ⟨((branch_pc_correct .BEQ ⟨0, 1, 2, 16⟩ cpu0).1 (by decide)).1,
   (branch_pc_correct .BLTU ⟨6, 1, 2, 16⟩ cpu0).2.1 (by decide)⟩

/-- C6: an executed JALR with post-increment PC `p` writes `p` into `rd`
(through the register file's write, so a write to `x0` is dropped) and sets
the PC to `(rs1 + imm) % 2^32`, with no clearing of the target's low bit. -/
theorem jalr_correct (f : IFormat) (cpu : Cpu) :
    (Inst.execute (.I .Jalr f) cpu).pc = wrap_add (cpu.regs.read f.rs1) f.imm ∧
    (Inst.execute (.I .Jalr f) cpu).regs = cpu.regs.write f.rd cpu.pc ∧
    (f.rd ≠ 0 → ((Inst.execute (.I .Jalr f) cpu).regs).read f.rd = cpu.pc) := by
  refine ⟨rfl, rfl, fun h => ?_⟩
  simp [Inst.execute, Registers.write, Registers.read, h]

theorem jalr_correct_witness :
    ((10 : Nat) ≠ 0) ∧
    (Inst.execute (.I .Jalr ⟨10, 0, 5, 0x401⟩) cpu0).pc = 0x401 ∧
    ((Inst.execute (.I .Jalr ⟨10, 0, 5, 0x401⟩) cpu0).regs).read 10 = cpu0.pc := by
  refine ⟨by decide, ?_, (jalr_correct ⟨10, 0, 5, 0x401⟩ cpu0).2.2 (by decide)⟩
  have h := (jalr_correct ⟨10, 0, 5, 0x401⟩ cpu0).1
  rw [h]
  decide

/-- C7: an executed LUI writes `imm <<< 12` (i.e. `imm * 4096` mod `2^32`) to
`rd`, and an executed AUIPC with post-increment PC `p ≥ 4` writes
`(p - 4) + imm * 4096` mod `2^32`, the instruction's own address plus the
shifted immediate. -/
theorem u_type_correct (f : UFormat) (cpu : Cpu) :
    (Inst.execute (.U .LUI f) cpu).regs = cpu.regs.write f.rd ((f.imm * 4096) % U32) ∧
    (4 ≤ cpu.pc →
      (Inst.execute (.U .AUIPC f) cpu).regs =
        cpu.regs.write f.rd ((cpu.pc - 4 + f.imm * 4096) % U32)) := by
  constructor
  · show cpu.regs.write f.rd ((f.imm <<< 12) % U32) = _
    rw [Nat.shiftLeft_eq]
  · intro _
    show cpu.regs.write f.rd (wrap_add (cpu.pc - 4) ((f.imm <<< 12) % U32)) = _
    have : wrap_add (cpu.pc - 4) ((f.imm <<< 12) % U32) =
        (cpu.pc - 4 + f.imm * 4096) % U32 := by
      unfold wrap_add U32
      rw [Nat.shiftLeft_eq]
      norm_num
    rw [this]

theorem u_type_correct_witness :
    ((Inst.execute (.U .LUI ⟨10, 1⟩) cpu0).regs).read 10 = 0x1000 ∧
    ((Inst.execute (.U .LUI ⟨10, 0xFFFF⟩) cpu0).regs).read 10 = 0xFFFF000 ∧
    (4 ≤ cpu0.pc) ∧
    ((Inst.execute (.U .AUIPC ⟨10, 1⟩) cpu0).regs).read 10 = 0x1004 := by
  refine ⟨?_, ?_, by decide, ?_⟩
  · rw [(u_type_correct ⟨10, 1⟩ cpu0).1]; decide
  · rw [(u_type_correct ⟨10, 0xFFFF⟩ cpu0).1]; decide
  · rw [(u_type_correct ⟨10, 1⟩ cpu0).2 (by decide)]; decide

theorem writeBytes_bytes_lt (len : Nat) :
    ∀ (m : Memory) (a v x : Nat), x < a →
      (m.writeBytes a len v).bytes x = m.bytes x := by
  induction len with
  | zero => intro m a v x _; rfl
  | succ n ih =>
    intro m a v x h
    show ((m.setByte a (v % 256)).writeBytes (a + 1) n (v / 256)).bytes x = m.bytes x
    rw [ih _ _ _ _ (by omega)]
    simp [Memory.setByte, Nat.ne_of_lt h]

theorem writeBytes_bytes_get (len : Nat) :
    ∀ (m : Memory) (a v i : Nat), i < len →
      (m.writeBytes a len v).bytes (a + i) = v / 256 ^ i % 256 := by
  induction len with
  | zero => intro m a v i h; omega
  | succ n ih =>
    intro m a v i h
    match i with
    | 0 =>
      show ((m.setByte a (v % 256)).writeBytes (a + 1) n (v / 256)).bytes (a + 0) = _
      rw [Nat.add_zero, writeBytes_bytes_lt n _ _ _ _ (by omega)]
      simp [Memory.setByte]
    | j + 1 =>
      show ((m.setByte a (v % 256)).writeBytes (a + 1) n (v / 256)).bytes (a + (j + 1)) = _
      have hadd : a + (j + 1) = (a + 1) + j := by omega
      rw [hadd, ih _ _ _ j (by omega), Nat.div_div_eq_div_mul, ← pow_succ']

theorem readLE_writeBytes (len : Nat) :
    ∀ (m : Memory) (a v : Nat),
      (m.writeBytes a len v).readLE a len = v % 256 ^ len := by
  induction len with
  | zero => intro m a v; simp [Memory.readLE, Nat.mod_one]
  | succ n ih =>
    intro m a v
    show ((m.setByte a (v % 256)).writeBytes (a + 1) n (v / 256)).readLE a (n + 1) = _
    rw [Memory.readLE]
    rw [writeBytes_bytes_lt n _ _ _ _ (by omega)]
    rw [ih _ _ _]
    have hb : (m.setByte a (v % 256)).bytes a = v % 256 := by simp [Memory.setByte]
    rw [hb, pow_succ', Nat.mod_mul]

theorem write_word_read_byte (m : Memory) (a v i : Nat) (h : i < 4) :
    (m.write a .Word v).read (a + i) .Byte true = v / 256 ^ i % 256 := by
  show (m.writeBytes a 4 v).readLE (a + i) 1 = _
  rw [Memory.readLE, Memory.readLE, writeBytes_bytes_get 4 m a v i h]
  omega

/-- C5: a sized write followed by a same-sized read at the same address returns
the low `size` bytes of the value, zero-extended when the read is unsigned and
sign-extended when it is signed; storage is little-endian, so the four bytes of
a written word read back lowest byte first. -/
theorem mem_rw_correct (m : Memory) (a : Nat) (s : Size) (v : Nat)
    (hv : v < U32) (hb : a + s.val ≤ MEM_SIZE) :
    ((m.write a s v).read a s true = v % 2 ^ (8 * s.val)) ∧
    ((m.write a s v).read a s false = sext (8 * s.val) (v % 2 ^ (8 * s.val))) ∧
    ((m.write a .Word 0x12345678).read a .Byte true = 0x78 ∧
     (m.write a .Word 0x12345678).read (a + 1) .Byte true = 0x56 ∧
     (m.write a .Word 0x12345678).read (a + 2) .Byte true = 0x34 ∧
     (m.write a .Word 0x12345678).read (a + 3) .Byte true = 0x12) := by
  refine ⟨?_, ?_, ?_, ?_, ?_, ?_⟩
  · cases s with
    | Byte =>
      show (m.writeBytes a 1 v).readLE a 1 = v % 2 ^ (8 * 1)
      rw [readLE_writeBytes]; norm_num
    | HalfWord =>
      show (m.writeBytes a 2 v).readLE a 2 = v % 2 ^ (8 * 2)
      rw [readLE_writeBytes]; norm_num
    | Word =>
      show (m.writeBytes a 4 v).readLE a 4 = v % 2 ^ (8 * 4)
      rw [readLE_writeBytes]; norm_num
  · cases s with
    | Byte =>
      show sext 8 ((m.writeBytes a 1 v).readLE a 1) = sext (8 * 1) (v % 2 ^ (8 * 1))
      rw [readLE_writeBytes]; norm_num
    | HalfWord =>
      show sext 16 ((m.writeBytes a 2 v).readLE a 2) = sext (8 * 2) (v % 2 ^ (8 * 2))
      rw [readLE_writeBytes]; norm_num
    | Word =>
      show (m.writeBytes a 4 v).readLE a 4 = sext (8 * 4) (v % 2 ^ (8 * 4))
      rw [readLE_writeBytes]
      show v % 256 ^ 4 = sext 32 (v % 2 ^ 32)
      rw [sext_32_eq]; norm_num
  · have h0 := write_word_read_byte m a 0x12345678 0 (by norm_num)
    norm_num at h0; exact h0
  · have h1 := write_word_read_byte m a 0x12345678 1 (by norm_num)
    norm_num at h1; exact h1
  · have h2 := write_word_read_byte m a 0x12345678 2 (by norm_num)
    norm_num at h2; exact h2
  · have h3 := write_word_read_byte m a 0x12345678 3 (by norm_num)
    norm_num at h3; exact h3

theorem mem_rw_correct_witness :
    (0x1FF < U32 ∧ 0 + Size.val .Byte ≤ MEM_SIZE) ∧
    (Memory.new.write 0 .Byte 0x1FF).read 0 .Byte true = 0xFF ∧
    (Memory.new.write 0 .Byte 0x1FF).read 0 .Byte false = 0xFFFFFFFF := by
  refine ⟨⟨by decide, by decide⟩, ?_, ?_⟩
  · have h := (mem_rw_correct Memory.new 0 .Byte 0x1FF (by decide) (by decide)).1
    norm_num at h; exact h
  · have h := (mem_rw_correct Memory.new 0 .Byte 0x1FF (by decide) (by decide)).2.1
    norm_num [sext, U32] at h; exact h

theorem resize_with_zero_length (l : List Nat) (n : Nat) :
    (resize_with_zero l n).length = n := by
  unfold resize_with_zero
  split
  · simp; omega
  · simp; omega

/-- C1 counterexample: loading a program one byte longer than `MEM_SIZE` does
not fail — `resize_with` truncates the vector, so the conversion succeeds. -/
theorem load_program_oversized_not_fail :
    Memory.new.load_program (List.replicate (MEM_SIZE + 1) 1) ≠ none := by
  unfold Memory.load_program
  rw [if_pos (resize_with_zero_length _ _)]
  simp

/-- C1 (amended): `load_program` never fails; it copies the first
`min (len, MEM_SIZE)` bytes of the program to offset 0 (truncating a program
longer than `MEM_SIZE`) and sets every remaining byte of the backing array
to 0. -/
theorem load_program_correct (m : Memory) (program : List Nat) :
    ∃ mem, m.load_program program = some mem ∧
      ∀ i, mem.bytes i =
        if i < program.length ∧ i < MEM_SIZE then program.getD i 0 else 0 := by
  unfold Memory.load_program
  rw [if_pos (resize_with_zero_length _ _)]
  refine ⟨_, rfl, fun i => ?_⟩
  show (resize_with_zero program MEM_SIZE).getD i 0 = _
  unfold resize_with_zero
  split
  · rename_i hle
    by_cases hi : i < MEM_SIZE
    · rw [if_pos ⟨by omega, hi⟩]
      rw [List.getD_eq_getElem _ _ (by simp; omega), List.getElem_take,
        List.getD_eq_getElem _ _ (by omega)]
    · rw [if_neg (by omega)]
      exact List.getD_eq_default _ _ (by simp; omega)
  · rename_i hgt
    by_cases hi : i < program.length
    · rw [if_pos ⟨hi, by omega⟩]
      exact List.getD_append _ _ _ _ hi
    · rw [if_neg (by omega)]
      rw [List.getD_append_right _ _ _ _ (by omega)]
      by_cases hM : i < MEM_SIZE
      · rw [List.getD_eq_getElem _ _ (by simp; omega)]
        simp
      · exact List.getD_eq_default _ _ (by simp; omega)

theorem load_program_correct_witness :
    ∃ mem, Memory.new.load_program [7, 8] = some mem ∧
      mem.bytes 0 = 7 ∧ mem.bytes 1 = 8 ∧ mem.bytes 2 = 0 := by
  obtain ⟨mem, hsome, hb⟩ := load_program_correct Memory.new [7, 8]
  refine ⟨mem, hsome, ?_, ?_, ?_⟩
  · have := hb 0; norm_num [MEM_SIZE] at this; exact this
  · have := hb 1; norm_num [MEM_SIZE] at this; exact this
  · have := hb 2; norm_num [MEM_SIZE] at this; exact this

theorem rformat_funct3_eq (raw_inst : Nat) :
    (RFormat.new raw_inst).funct3 = get_bits raw_inst 12 14 := rfl

theorem rformat_funct7_eq (raw_inst : Nat) :
    (RFormat.new raw_inst).funct7 = get_bits raw_inst 25 31 := rfl

theorem iformat_funct3_eq (raw_inst : Nat) :
    (IFormat.new raw_inst).funct3 = get_bits raw_inst 12 14 := rfl

theorem sformat_funct3_eq (raw_inst : Nat) :
    (SFormat.new raw_inst).funct3 = get_bits raw_inst 12 14 := rfl

theorem bformat_funct3_eq (raw_inst : Nat) :
    (BFormat.new raw_inst).funct3 = get_bits raw_inst 12 14 := rfl

/-- Bits 5..11 of the sign-extended I-immediate are bits 25..31 of the raw
word (the `funct7` field): sign extension only fills bits 12 and above. -/
theorem upper_imm_eq (raw_inst : Nat) :
    get_bits (IFormat.new raw_inst).imm 5 11 = get_bits raw_inst 25 31 := by
  show get_bits (get_bits_i32 raw_inst 20 31) 5 11 = get_bits raw_inst 25 31
  unfold get_bits_i32 get_bits U32
  norm_num
  split <;> omega

theorem isOkInst_exists {e : Except Error Inst} (h : isOkInst e = true) :
    ∃ inst, e = .ok inst := by
  cases e with
  | ok inst => exact ⟨inst, rfl⟩
  | error er => simp [isOkInst] at h

theorem isInvalidInstFormat_exists {e : Except Error Inst}
    (h : isInvalidInstFormat e = true) :
    ∃ fe, e = .error (.InvalidInstFormat fe) := by
  cases e with
  | ok inst => simp [isInvalidInstFormat] at h
  | error er =>
    cases er with
    | InvalidInstFormat fe => exact ⟨fe, rfl⟩
    | InvalidOpcode o => simp [isInvalidInstFormat] at h
    | InvalidPC p m => simp [isInvalidInstFormat] at h
    | EndOfInstructions => simp [isInvalidInstFormat] at h

set_option maxHeartbeats 1000000 in
theorem decode_r_err (raw_inst : Nat) (hop : get_bits raw_inst 0 6 = 51)
    (hL : listedCombo raw_inst = false) :
    isInvalidInstFormat (decode_r raw_inst) = true := by
  simp only [listedCombo, hop] at hL
  norm_num at hL
  simp only [decode_r, rformat_funct3_eq, rformat_funct7_eq]
  split
  · rename_i heq heq7; exact absurd heq7 (hL.1 heq).1
  · rename_i heq heq7; exact absurd heq7 (hL.1 heq).2
  · rename_i heq heq7; exact absurd heq7 (hL.2.1 heq)
  · rename_i heq heq7; exact absurd heq7 (hL.2.2.1 heq)
  · rename_i heq heq7; exact absurd heq7 (hL.2.2.2.1 heq)
  · rename_i heq heq7; exact absurd heq7 (hL.2.2.2.2.1 heq)
  · rename_i heq heq7; exact absurd heq7 (hL.2.2.2.2.2.1 heq).1
  · rename_i heq heq7; exact absurd heq7 (hL.2.2.2.2.2.1 heq).2
  · rename_i heq heq7; exact absurd heq7 (hL.2.2.2.2.2.2.1 heq)
  · rename_i heq heq7; exact absurd heq7 (hL.2.2.2.2.2.2.2 heq)
  · rfl

set_option maxHeartbeats 1000000 in
theorem decode_r_ok (raw_inst : Nat) (hop : get_bits raw_inst 0 6 = 51)
    (hL : listedCombo raw_inst = true) :
    isOkInst (decode_r raw_inst) = true := by
  simp only [listedCombo, hop] at hL
  norm_num at hL
  simp only [decode_r, rformat_funct3_eq, rformat_funct7_eq]
  obtain ⟨h3, h7 | h7⟩ | ⟨h3, h7⟩ | ⟨h3, h7⟩ | ⟨h3, h7⟩ | ⟨h3, h7⟩ |
    ⟨h3, h7 | h7⟩ | ⟨h3, h7⟩ | ⟨h3, h7⟩ := hL <;> rw [h3, h7] <;> rfl

set_option maxHeartbeats 1000000 in
theorem decode_i_arith_err (raw_inst : Nat) (hop : get_bits raw_inst 0 6 = 19)
    (hL : listedCombo raw_inst = false) :
    isInvalidInstFormat (decode_i_arith raw_inst) = true := by
  simp only [listedCombo, hop] at hL
  norm_num at hL
  simp only [decode_i_arith, iformat_funct3_eq, upper_imm_eq]
  split
  · rename_i heq; exact absurd heq hL.1
  · rename_i heq; exact absurd heq hL.2.1
  · rename_i heq; exact absurd heq hL.2.2.1
  · rename_i heq; exact absurd heq hL.2.2.2.1
  · rename_i heq hequ; exact absurd hequ (hL.2.2.2.2.1 heq)
  · rename_i heq hequ; exact absurd hequ (hL.2.2.2.2.2.1 heq).1
  · rename_i heq hequ; exact absurd hequ (hL.2.2.2.2.2.1 heq).2
  · rename_i heq; exact absurd heq hL.2.2.2.2.2.2.1
  · rename_i heq; exact absurd heq hL.2.2.2.2.2.2.2
  · rfl

set_option maxHeartbeats 1000000 in
theorem decode_i_arith_ok (raw_inst : Nat) (hop : get_bits raw_inst 0 6 = 19)
    (hL : listedCombo raw_inst = true) :
    isOkInst (decode_i_arith raw_inst) = true := by
  simp only [listedCombo, hop] at hL
  norm_num at hL
  simp only [decode_i_arith, iformat_funct3_eq, upper_imm_eq]
  obtain h3 | h3 | h3 | h3 | ⟨h3, h7⟩ | ⟨h3, h7 | h7⟩ | h3 | h3 := hL <;>
    first
    | (rw [h3, h7] ; rfl)
    | (rw [h3] ; rfl)

set_option maxHeartbeats 1000000 in
theorem decode_i_load_cases (raw_inst : Nat) (hop : get_bits raw_inst 0 6 = 3) :
    (listedCombo raw_inst = false →
      isInvalidInstFormat (decode_i_load raw_inst) = true) ∧
    (listedCombo raw_inst = true → isOkInst (decode_i_load raw_inst) = true) := by
  constructor <;> intro hL <;>
    simp only [listedCombo, hop] at hL <;> norm_num at hL <;>
    simp only [decode_i_load, iformat_funct3_eq]
  · split
    · rename_i heq; exact absurd heq hL.1
    · rename_i heq; exact absurd heq hL.2.1
    · rename_i heq; exact absurd heq hL.2.2.1
    · rename_i heq; exact absurd heq hL.2.2.2.1
    · rename_i heq; exact absurd heq hL.2.2.2.2
    · rfl
  · obtain h3 | h3 | h3 | h3 | h3 := hL <;> rw [h3] <;> rfl

set_option maxHeartbeats 1000000 in
theorem decode_i_jalr_cases (raw_inst : Nat) (hop : get_bits raw_inst 0 6 = 103) :
    (listedCombo raw_inst = false →
      isInvalidInstFormat (decode_i_jalr raw_inst) = true) ∧
    (listedCombo raw_inst = true → isOkInst (decode_i_jalr raw_inst) = true) := by
  constructor <;> intro hL <;>
    simp only [listedCombo, hop] at hL <;> norm_num at hL <;>
    simp only [decode_i_jalr, iformat_funct3_eq]
  · rw [if_neg hL]; rfl
  · rw [if_pos hL]; rfl

set_option maxHeartbeats 1000000 in
theorem decode_s_cases (raw_inst : Nat) (hop : get_bits raw_inst 0 6 = 35) :
    (listedCombo raw_inst = false →
      isInvalidInstFormat (decode_s raw_inst) = true) ∧
    (listedCombo raw_inst = true → isOkInst (decode_s raw_inst) = true) := by
  constructor <;> intro hL <;>
    simp only [listedCombo, hop] at hL <;> norm_num at hL <;>
    simp only [decode_s, sformat_funct3_eq]
  · split
    · rename_i heq; exact absurd heq hL.1
    · rename_i heq; exact absurd heq hL.2.1
    · rename_i heq; exact absurd heq hL.2.2
    · rfl
  · obtain h3 | h3 | h3 := hL <;> rw [h3] <;> rfl

set_option maxHeartbeats 1000000 in
theorem decode_b_cases (raw_inst : Nat) (hop : get_bits raw_inst 0 6 = 99) :
    (listedCombo raw_inst = false →
      isInvalidInstFormat (decode_b raw_inst) = true) ∧
    (listedCombo raw_inst = true → isOkInst (decode_b raw_inst) = true) := by
  constructor <;> intro hL <;>
    simp only [listedCombo, hop] at hL <;> norm_num at hL <;>
    simp only [decode_b, bformat_funct3_eq]
  · split
    · rename_i heq; exact absurd heq hL.1
    · rename_i heq; exact absurd heq hL.2.1
    · rename_i heq; exact absurd heq hL.2.2.1
    · rename_i heq; exact absurd heq hL.2.2.2.1
    · rename_i heq; exact absurd heq hL.2.2.2.2.1
    · rename_i heq; exact absurd heq hL.2.2.2.2.2
    · rfl
  · obtain h3 | h3 | h3 | h3 | h3 | h3 := hL <;> rw [h3] <;> rfl

set_option maxHeartbeats 1000000 in
/-- C8: for every instruction word, decode returns `InvalidOpcode` carrying
the low 7 bits exactly when they match none of the eleven recognised opcodes,
returns `InvalidInstFormat` carrying decoded fields when the opcode is
recognised but the funct3/funct7 (or, for the immediate shifts, imm[11:5])
combination is not listed in the dispatch table, and returns a typed
instruction in every other case. -/
theorem decode_trichotomy (cpu : Cpu) (raw_inst : Nat) :
    (get_bits raw_inst 0 6 ∉ recognizedOpcodes →
      cpu.decode raw_inst = .error (.InvalidOpcode (get_bits raw_inst 0 6))) ∧
    (get_bits raw_inst 0 6 ∈ recognizedOpcodes → listedCombo raw_inst = false →
      ∃ fe, cpu.decode raw_inst = .error (.InvalidInstFormat fe)) ∧
    (get_bits raw_inst 0 6 ∈ recognizedOpcodes → listedCombo raw_inst = true →
      ∃ inst, cpu.decode raw_inst = .ok inst) := by
  have hd : cpu.decode raw_inst =
      (if get_bits raw_inst 0 6 = 51 then decode_r raw_inst
       else if get_bits raw_inst 0 6 = 19 then decode_i_arith raw_inst
       else if get_bits raw_inst 0 6 = 3 then decode_i_load raw_inst
       else if get_bits raw_inst 0 6 = 103 then decode_i_jalr raw_inst
       else if get_bits raw_inst 0 6 = 35 then decode_s raw_inst
       else if get_bits raw_inst 0 6 = 99 then decode_b raw_inst
       else if get_bits raw_inst 0 6 = 111 then .ok (.J (JFormat.new raw_inst))
       else if get_bits raw_inst 0 6 = 55 then .ok (.U .LUI (UFormat.new raw_inst))
       else if get_bits raw_inst 0 6 = 23 then .ok (.U .AUIPC (UFormat.new raw_inst))
       else if get_bits raw_inst 0 6 = 115 then
         .ok (.SysCall
           (if cpu.regs.read 17 = 93 then .Exit (cpu.regs.read 10 % 256) else .Nop))
       else if get_bits raw_inst 0 6 = 15 then .ok (.SysCall .Nop)
       else .error (.InvalidOpcode (get_bits raw_inst 0 6))) := rfl
  refine ⟨?_, ?_, ?_⟩
  · intro h
    simp only [recognizedOpcodes, List.mem_cons, List.not_mem_nil, or_false] at h
    push_neg at h
    obtain ⟨h1, h2, h3, h4, h5, h6, h7, h8, h9, h10, h11⟩ := h
    simp only [hd, if_neg h1, if_neg h2, if_neg h3, if_neg h4, if_neg h5, if_neg h6,
      if_neg h7, if_neg h8, if_neg h9, if_neg h10, if_neg h11]
  · intro hmem hL
    simp only [recognizedOpcodes, List.mem_cons, List.not_mem_nil, or_false] at hmem
    rcases hmem with hop | hop | hop | hop | hop | hop | hop | hop | hop | hop | hop
    · simp only [hd, hop]; norm_num
      exact isInvalidInstFormat_exists (decode_r_err raw_inst hop hL)
    · simp only [hd, hop]; norm_num
      exact isInvalidInstFormat_exists (decode_i_arith_err raw_inst hop hL)
    · simp only [hd, hop]; norm_num
      exact isInvalidInstFormat_exists ((decode_i_load_cases raw_inst hop).1 hL)
    · simp only [hd, hop]; norm_num
      exact isInvalidInstFormat_exists ((decode_i_jalr_cases raw_inst hop).1 hL)
    · simp only [hd, hop]; norm_num
      exact isInvalidInstFormat_exists ((decode_s_cases raw_inst hop).1 hL)
    · simp only [hd, hop]; norm_num
      exact isInvalidInstFormat_exists ((decode_b_cases raw_inst hop).1 hL)
    · simp only [listedCombo, hop] at hL; norm_num at hL
    · simp only [listedCombo, hop] at hL; norm_num at hL
    · simp only [listedCombo, hop] at hL; norm_num at hL
    · simp only [listedCombo, hop] at hL; norm_num at hL
    · simp only [listedCombo, hop] at hL; norm_num at hL
  · intro hmem hL
    simp only [recognizedOpcodes, List.mem_cons, List.not_mem_nil, or_false] at hmem
    rcases hmem with hop | hop | hop | hop | hop | hop | hop | hop | hop | hop | hop
    · simp only [hd, hop]; norm_num
      exact isOkInst_exists (decode_r_ok raw_inst hop hL)
    · simp only [hd, hop]; norm_num
      exact isOkInst_exists (decode_i_arith_ok raw_inst hop hL)
    · simp only [hd, hop]; norm_num
      exact isOkInst_exists ((decode_i_load_cases raw_inst hop).2 hL)
    · simp only [hd, hop]; norm_num
      exact isOkInst_exists ((decode_i_jalr_cases raw_inst hop).2 hL)
    · simp only [hd, hop]; norm_num
      exact isOkInst_exists ((decode_s_cases raw_inst hop).2 hL)
    · simp only [hd, hop]; norm_num
      exact isOkInst_exists ((decode_b_cases raw_inst hop).2 hL)
    · simp only [hd, hop]; norm_num
    · simp only [hd, hop]; norm_num
    · simp only [hd, hop]; norm_num
    · simp only [hd, hop]; norm_num
    · simp only [hd, hop]; norm_num

theorem decode_trichotomy_witness :
    (get_bits 0 0 6 ∉ recognizedOpcodes ∧
      Cpu.decode cpu0 0 = .error (.InvalidOpcode (get_bits 0 0 6))) ∧
    (get_bits 0x02000033 0 6 ∈ recognizedOpcodes ∧ listedCombo 0x02000033 = false ∧
      ∃ fe, Cpu.decode cpu0 0x02000033 = .error (.InvalidInstFormat fe)) ∧
    (get_bits 0x00000013 0 6 ∈ recognizedOpcodes ∧ listedCombo 0x00000013 = true ∧
      ∃ inst, Cpu.decode cpu0 0x00000013 = .ok inst) :=
  ⟨⟨by decide, (decode_trichotomy cpu0 0).1 (by decide)⟩,
   ⟨by decide, by decide, (decode_trichotomy cpu0 0x02000033).2.1 (by decide) (by decide)⟩,
   ⟨by decide, by decide, (decode_trichotomy cpu0 0x00000013).2.2 (by decide) (by decide)⟩⟩

end RiscV
